import Mathlib

/-!
Verification of the structural span scanner of OttoInstagramExplorer.

The repository's only algorithmic routine is the brace-depth scan loop at
module level in `src/analyze_comment_structure.py` (lines 31-58): it walks a
character stream while tracking brace depth, string state and escape state,
and emits the span of the first "complete object" it recognises.  This file
embeds that loop and the surrounding emission logic, and proves or refutes
the specification's claims about it.
-/

set_option maxRecDepth 8000

namespace Otto

/-- The scanner's transient state: the module-level variables
`depth`, `in_string`, `escape_next` of `analyze_comment_structure.py`
(lines 31-33).  `depth` is a Python `int`, so it is embedded as `Int`
(it can go negative on stray closing braces). -/
structure ScanState where
  depth : Int
  in_string : Bool
  escape_next : Bool
deriving DecidableEq

/-- Initial state: `depth = 0`, `in_string = False`, `escape_next = False`. -/
def initState : ScanState := ⟨0, false, false⟩

/-- One iteration of the loop body of `analyze_comment_structure.py`
(lines 35-50) as a pure state transition, ignoring the emission test.
Branches in source order:
`if escape_next: escape_next = False; continue`,
`if char == backslash: escape_next = True; continue`,
`if char == quote and not escape_next: in_string = not in_string; continue`
(at that point `escape_next` is always `False`, the first branch returned),
`if not in_string: if char == open brace: depth += 1
 elif char == close brace: depth -= 1`. -/
def step (s : ScanState) (c : Char) : ScanState :=
  if s.escape_next then ⟨s.depth, s.in_string, false⟩
  else if c = '\\' then ⟨s.depth, s.in_string, true⟩
  else if c = '"' then ⟨s.depth, !s.in_string, s.escape_next⟩
  else if !s.in_string then
    if c = '{' then ⟨s.depth + 1, s.in_string, s.escape_next⟩
    else if c = '}' then ⟨s.depth - 1, s.in_string, s.escape_next⟩
    else s
  else s

/-- Running the state transition over a list of characters
(the loop without its emission test). -/
def stateRun (s : ScanState) (l : List Char) : ScanState := List.foldl step s l

/-- The scan loop of `analyze_comment_structure.py` (lines 35-53), with the
hard-coded threshold `1000` and target depth `1` of line 51 lifted to
parameters `min_close` and `tgt` (the spec's `minCloseOffset` and target
depth).  `l` is the unread rest of the stream, `i` the absolute index of its
head, `s` the current state.  On the emission condition
`depth == tgt and i > min_close` (checked right after the decrement, as on
lines 50-51) it returns the exclusive end offset `i + 1` of the span
(the code slices `sample[.. : i+1]`); if the loop exhausts the stream it
returns `none`. -/
def scanAux (min_close : Nat) (tgt : Int) : List Char → Nat → ScanState → Option Nat
  | [], _, _ => none
  | c :: cs, i, s =>
    if s.escape_next then
      scanAux min_close tgt cs (i + 1) ⟨s.depth, s.in_string, false⟩
    else if c = '\\' then
      scanAux min_close tgt cs (i + 1) ⟨s.depth, s.in_string, true⟩
    else if c = '"' then
      scanAux min_close tgt cs (i + 1) ⟨s.depth, !s.in_string, s.escape_next⟩
    else if !s.in_string then
      if c = '{' then
        scanAux min_close tgt cs (i + 1) ⟨s.depth + 1, s.in_string, s.escape_next⟩
      else if c = '}' then
        if s.depth - 1 = tgt ∧ i > min_close then some (i + 1)
        else scanAux min_close tgt cs (i + 1) ⟨s.depth - 1, s.in_string, s.escape_next⟩
      else scanAux min_close tgt cs (i + 1) s
    else scanAux min_close tgt cs (i + 1) s

/-- A whole scan invocation at parameters `min_close`, `tgt`: fresh state,
index starting at 0 (Python `enumerate(sample)`). -/
def scanAt (min_close : Nat) (tgt : Int) (l : List Char) : Option Nat :=
  scanAux min_close tgt l 0 initState

/-- `sample.find(chr)` of line 54: index of the first occurrence of a
character, `none` when absent (Python returns `-1`). -/
def findIdx (ch : Char) : List Char → Option Nat
  | [] => none
  | c :: cs => if c = ch then some 0 else (findIdx ch cs).map (· + 1)

/-- The full routine of `analyze_comment_structure.py` lines 31-58 with its
hard-coded parameters: scan with `min_close = 1000`, `tgt = 1`; on a hit the
code computes `first_colon = sample.find(compile-time colon)` and, only when
that is not `-1`, slices `sample[first_colon+1 : i+1]` and breaks.  When no
colon exists the loop keeps running (and, the colon index being a property
of the whole sample, never emits).  Result: the emitted span
`(first_colon + 1, i + 1)`, or `none`. -/
def scan (l : List Char) : Option (Nat × Nat) :=
  match findIdx ':' l with
  | none => none
  | some fc => (scanAux 1000 1 l 0 initState).map (fun e => (fc + 1, e))

/-- The emission test of lines 50-51, as a Boolean of the state *before* the
character is processed: the character is a closing brace reached outside a
string with no pending escape, the decremented depth equals the target, and
the absolute position exceeds the threshold. -/
def emits (min_close : Nat) (tgt : Int) (s : ScanState) (c : Char) (i : Nat) : Bool :=
  !s.escape_next && !s.in_string && decide (c = '}') &&
    decide (s.depth - 1 = tgt) && decide (min_close < i)

/-- Modelled from the spec: incremental chunk feeding (spec sections 5 and 8).
The scripts under src read one buffer and never feed the scan loop in chunks,
so the chunk driver is missing from the source; the spec requires chunk
delivery at character granularity, with the `ScanState` and the absolute
position carried across chunk boundaries.  Each chunk is scanned with the
state left by the previous chunks and the running absolute index. -/
def scanChunksAux (min_close : Nat) (tgt : Int) :
    List (List Char) → Nat → ScanState → Option Nat
  | [], _, _ => none
  | ch :: rest, i, s =>
    match scanAux min_close tgt ch i s with
    | some e => some e
    | none => scanChunksAux min_close tgt rest (i + ch.length) (stateRun s ch)

/-- Modelled from the spec: a whole chunked scan invocation (fresh state,
absolute position 0). -/
def scanChunks (min_close : Nat) (tgt : Int) (chunks : List (List Char)) : Option Nat :=
  scanChunksAux min_close tgt chunks 0 initState

/-- `body` is well-formed balanced with respect to the scanner's own
string-aware depth semantics: the running depth of every prefix is
nonnegative, and processing all of `body` returns the state to the initial
one (depth 0, not inside a string, no pending escape).  Braces inside quoted
substrings do not move the depth, so this captures the spec's
"no unescaped braces inside quoted substrings" reading of balance. -/
def Balanced (body : List Char) : Prop :=
  (∀ j, j ≤ body.length → 0 ≤ (stateRun initState (body.take j)).depth) ∧
    stateRun initState body = initState

instance decBalanced : DecidablePred Balanced := fun body => by
  unfold Balanced
  infer_instance

/-- `l` is exactly one balanced brace-delimited region, with respect to the
scanner's string-aware depth semantics: it starts with an opening brace, the
state returns to the initial state at its end, and the depth never returns
to 0 strictly inside it (so it is one region, not a concatenation). -/
def BalancedRegion (l : List Char) : Prop :=
  l.head? = some '{' ∧
    (∀ j, j < l.length → 0 < j → (stateRun initState (l.take j)).depth ≠ 0) ∧
      stateRun initState l = initState

instance decBalancedRegion : DecidablePred BalancedRegion := fun l => by
  unfold BalancedRegion
  infer_instance

/-! Concrete inputs used by the claims. -/

/-- The seven-character input `\x7b"a":1\x7d`. -/
def exObj : List Char := ['{', '"', 'a', '"', ':', '1', '}']

/-- The body `"a":1` of `exObj`. -/
def exBody : List Char := ['"', 'a', '"', ':', '1']

/-- The twelve-character input `\x7b"a":"x\"y"\x7d` with an escaped quote
inside a string literal. -/
def exEscape : List Char :=
  ['{', '"', 'a', '"', ':', '"', 'x', '\\', '"', 'y', '"', '}']

/-- The input `\x7b"a":"\x7bnot a brace\x7d"\x7d` with braces inside a
string literal (21 characters). -/
def exInnerBrace : List Char :=
  ['{', '"', 'a', '"', ':', '"', '{', 'n', 'o', 't', ' ', 'a', ' ',
   'b', 'r', 'a', 'c', 'e', '}', '"', '}']

/-- The input `\x7d\x7b"a":1\x7d` with a stray leading closing brace. -/
def exStray : List Char := ['}', '{', '"', 'a', '"', ':', '1', '}']

/-- The input `\x7b"a":1` with unbalanced braces (no closing brace). -/
def exUnbalanced : List Char := ['{', '"', 'a', '"', ':', '1']

/-- The input `\x7b"a":"xy` that ends inside an unterminated string. -/
def exUnterminated : List Char := ['{', '"', 'a', '"', ':', '"', 'x', 'y']

/-- The eight-character input `\x7b"a":\x7b\x7d\x7d` with a nested object. -/
def exNested : List Char := ['{', '"', 'a', '"', ':', '{', '}', '}']

/-- The body `"a":\x7b\x7d` of `exNested`. -/
def exNestedBody : List Char := ['"', 'a', '"', ':', '{', '}']

/-- A 1002-character filler: an opening brace, a colon, then 1000 `x`
characters.  It contains no closing brace, so the scan cannot emit inside
it, and it pushes later offsets beyond the hard-coded threshold 1000. -/
def exFill : List Char := '{' :: ':' :: List.replicate 1000 'x'

/-- A 1004-character input on which the hard-coded routine reports success:
the filler followed by an inner `\x7b\x7d` whose closing brace at index
1003 > 1000 brings the depth back to 1. -/
def exLong : List Char := exFill ++ ['{', '}']

/-- `exLong` followed by `\x7b"x`: the stream ends with unbalanced braces
and inside an unterminated string, but only after an interior span has
already qualified. -/
def exLongTail : List Char := exFill ++ ['{', '}', '{', '"', 'x']

-- Compile-time sanity checks of hand simulations.
example : scanAt 0 0 ['{', '"', 'a', '"', ':', '1', '}'] = some 7 := by decide
example : scanAt 0 1 ['{', '"', 'a', '"', ':', '1', '}'] = none := by decide
example : scanAt 0 0 ['}', '{', '"', 'a', '"', ':', '1', '}'] = none := by decide
example : scanAt 0 (-1) ['}', '{', '"', 'a', '"', ':', '1', '}'] = some 8 := by decide
example :
    scanAt 0 0 ['{', '"', 'a', '"', ':', '"', 'x', '\\', '"', 'y', '"', '}'] = some 12 := by
  decide
example : scan ['{', '"', 'a', '"', ':', '1', '}'] = none := by decide
example : Balanced exBody := by decide
example : ¬ BalancedRegion ['x', '{', '}'] := by decide
example : BalancedRegion exObj := by decide

/-! Helper lemmas about the scan loop. -/

/-- Unfolding lemma: one loop iteration either emits (per `emits`) or
recurses with the state advanced by `step`. -/
theorem scanAux_cons (m : Nat) (t : Int) (c : Char) (cs : List Char) (i : Nat) (s : ScanState) :
    scanAux m t (c :: cs) i s =
      if emits m t s c i then some (i + 1) else scanAux m t cs (i + 1) (step s c) := by
  by_cases h1 : s.escape_next
  · simp [scanAux, step, emits, h1]
  · by_cases h2 : c = '\\'
    · subst h2; simp [scanAux, step, emits, h1]
    · by_cases h3 : c = '"'
      · subst h3; simp [scanAux, step, emits, h1, h2]
      · by_cases h4 : s.in_string
        · simp [scanAux, step, emits, h1, h2, h3, h4]
        · by_cases h5 : c = '{'
          · subst h5; simp [scanAux, step, emits, h1, h2, h3, h4]
          · by_cases h6 : c = '}'
            · subst h6
              by_cases h7 : s.depth - 1 = t ∧ i > m
              · simp [scanAux, step, emits, h1, h2, h3, h4, h5, h7, h7.1, h7.2]
              · rw [Decidable.not_and_iff_or_not] at h7
                rcases h7 with h7 | h7 <;>
                  simp_all [scanAux, step, emits, h1, h2, h3, h4, h5]
            · simp [scanAux, step, emits, h1, h2, h3, h4, h5, h6]

/-- `step` only reads the sign-free value of `depth` to update it by a
constant: shifting the depth of the input state shifts the depth of the
output state and changes nothing else. -/
theorem step_shift (s : ScanState) (n : Int) (c : Char) :
    step ⟨s.depth + n, s.in_string, s.escape_next⟩ c =
      ⟨(step s c).depth + n, (step s c).in_string, (step s c).escape_next⟩ := by
  unfold step
  split_ifs <;> simp_all <;> omega

/-- Depth-shift lemma for a whole run. -/
theorem stateRun_shift (l : List Char) (s : ScanState) (n : Int) :
    stateRun ⟨s.depth + n, s.in_string, s.escape_next⟩ l =
      ⟨(stateRun s l).depth + n, (stateRun s l).in_string, (stateRun s l).escape_next⟩ := by
  induction l generalizing s with
  | nil => rfl
  | cons c cs ih =>
    simp only [stateRun, List.foldl_cons] at *
    rw [step_shift, ih]

/-- Splitting the scanned stream: scanning `l₁ ++ l₂` either finds its span
inside `l₁`, or scans `l₂` with the index advanced by `l₁.length` and the
state advanced by running `l₁`. -/
theorem scanAux_append (m : Nat) (t : Int) (l₁ l₂ : List Char) (i : Nat) (s : ScanState) :
    scanAux m t (l₁ ++ l₂) i s =
      match scanAux m t l₁ i s with
      | some e => some e
      | none => scanAux m t l₂ (i + l₁.length) (stateRun s l₁) := by
  induction l₁ generalizing i s with
  | nil => simp [scanAux, stateRun]
  | cons c cs ih =>
    rw [List.cons_append, scanAux_cons, scanAux_cons]
    by_cases h : emits m t s c i
    · simp [h]
    · simp only [h, if_false, ih]
      have harr : i + 1 + cs.length = i + (c :: cs).length := by
        simp [List.length_cons]; omega
      rw [harr]
      rfl

/-- Soundness of a reported span: if the scan returns end offset `e`, then
`e = i + k + 1` for a position `k` inside the stream holding a closing brace
that was processed outside a string with no pending escape, whose decrement
hit the target depth, at an absolute position beyond the threshold. -/
theorem scanAux_sound (l : List Char) (m : Nat) (t : Int) :
    ∀ (i : Nat) (s : ScanState) (e : Nat), scanAux m t l i s = some e →
      ∃ k, k < l.length ∧ e = i + k + 1 ∧ l.get? k = some '}' ∧ m < i + k ∧
        (stateRun s (l.take k)).escape_next = false ∧
        (stateRun s (l.take k)).in_string = false ∧
        (stateRun s (l.take k)).depth - 1 = t := by
  induction l with
  | nil => intro i s e h; simp [scanAux] at h
  | cons c cs ih =>
    intro i s e h
    rw [scanAux_cons] at h
    by_cases hem : emits m t s c i = true
    · rw [if_pos hem] at h
      injection h with h
      simp only [emits, Bool.and_eq_true, Bool.not_eq_true', decide_eq_true_eq] at hem
      obtain ⟨⟨⟨⟨hesc, hins⟩, hc⟩, hd⟩, hi⟩ := hem
      exact ⟨0, by simp, by omega, by simp [hc], by omega, by simp [stateRun, hesc],
        by simp [stateRun, hins], by simp [stateRun, hd]⟩
    · rw [if_neg hem] at h
      obtain ⟨k, hk, he, hget, hm, h1, h2, h3⟩ := ih (i + 1) (step s c) e h
      refine ⟨k + 1, ?_, by omega, ?_, by omega, ?_, ?_, ?_⟩
      · simpa using hk
      · simpa using hget
      · simpa [stateRun] using h1
      · simpa [stateRun] using h2
      · simpa [stateRun] using h3

/-- Completeness of exhaustion: if the emission test fails at every position
of the stream, the scan exhausts it and returns `none`. -/
theorem scanAux_none (l : List Char) (m : Nat) (t : Int) :
    ∀ (i : Nat) (s : ScanState),
      (∀ k c, l.get? k = some c → emits m t (stateRun s (l.take k)) c (i + k) = false) →
      scanAux m t l i s = none := by
  induction l with
  | nil => intro i s _; rfl
  | cons c cs ih =>
    intro i s hall
    rw [scanAux_cons]
    have h0 : emits m t s c i = false := by
      have := hall 0 c (by simp)
      simpa [stateRun] using this
    rw [h0]
    simp only [Bool.false_eq_true, if_false]
    refine ih (i + 1) (step s c) ?_
    intro k c' hget
    have := hall (k + 1) c' (by simpa using hget)
    have harr : i + (k + 1) = i + 1 + k := by omega
    simpa [stateRun, harr] using this

/-- First-match characterisation: if position `k` passes the emission test
and no earlier position does, the scan returns end offset `i + k + 1`. -/
theorem scanAux_first (l : List Char) (m : Nat) (t : Int) :
    ∀ (i : Nat) (s : ScanState) (k : Nat) (c : Char), l.get? k = some c →
      emits m t (stateRun s (l.take k)) c (i + k) = true →
      (∀ j c', j < k → l.get? j = some c' →
        emits m t (stateRun s (l.take j)) c' (i + j) = false) →
      scanAux m t l i s = some (i + k + 1) := by
  induction l with
  | nil => intro i s k c hget; simp at hget
  | cons c0 cs ih =>
    intro i s k c hget hem hbefore
    rw [scanAux_cons]
    match k with
    | 0 =>
      simp only [List.get?] at hget
      injection hget with hget
      subst hget
      simp only [stateRun, List.take_zero, List.foldl_nil, Nat.add_zero] at hem
      rw [hem]
      simp
    | k' + 1 =>
      have h0 : emits m t s c0 i = false := by
        have := hbefore 0 c0 (by omega) (by simp)
        simpa [stateRun] using this
      rw [h0]
      simp only [Bool.false_eq_true, if_false]
      have harr : i + (k' + 1) = i + 1 + k' := by omega
      rw [show i + (k' + 1) + 1 = i + 1 + k' + 1 by omega]
      refine ih (i + 1) (step s c0) k' c (by simpa using hget) ?_ ?_
      · rw [← harr]
        simpa [stateRun] using hem
      · intro j c' hj hget'
        have := hbefore (j + 1) c' (by omega) (by simpa using hget')
        have harr2 : i + (j + 1) = i + 1 + j := by omega
        simpa [stateRun, harr2] using this

/-- Chunked feeding agrees with whole-input feeding: threading the state and
the absolute index across chunk boundaries scans exactly the concatenation. -/
theorem scanChunksAux_join (m : Nat) (t : Int) :
    ∀ (chunks : List (List Char)) (i : Nat) (s : ScanState),
      scanChunksAux m t chunks i s = scanAux m t chunks.flatten i s := by
  intro chunks
  induction chunks with
  | nil => intro i s; rfl
  | cons ch rest ih =>
    intro i s
    rw [List.flatten_cons, scanAux_append]
    simp only [scanChunksAux, ih]

/-- Soundness of the full hard-coded routine: a reported span has
`start = (index of the first colon) + 1` and `end = k + 1` for a closing
brace at offset `k > 1000`, reached outside a string with no pending escape,
whose decrement left depth exactly 1. -/
theorem scan_sound (l : List Char) (st e : Nat) (h : scan l = some (st, e)) :
    (∃ fc, findIdx ':' l = some fc ∧ st = fc + 1) ∧
      ∃ k, e = k + 1 ∧ 1000 < k ∧ k < l.length ∧ l.get? k = some '}' ∧
        (stateRun initState (l.take k)).escape_next = false ∧
        (stateRun initState (l.take k)).in_string = false ∧
        (stateRun initState (l.take k)).depth - 1 = 1 := by
  unfold scan at h
  cases hfc : findIdx ':' l with
  | none => rw [hfc] at h; exact absurd h (by simp)
  | some fc =>
    rw [hfc] at h
    obtain ⟨a, ha, hpair⟩ := Option.map_eq_some'.mp h
    rw [Prod.mk.injEq] at hpair
    obtain ⟨hst, hae⟩ := hpair
    subst hae
    obtain ⟨k, hk, he, hget, hm, h1, h2, h3⟩ := scanAux_sound l 1000 1 0 initState a ha
    exact ⟨⟨fc, rfl, hst.symm⟩, k, by omega, by omega, hk, hget, h1, h2, h3⟩

/-- A character fixed by `step` is fixed by any number of repetitions. -/
theorem stateRun_replicate (s : ScanState) (c : Char) (h : step s c = s) :
    ∀ n, stateRun s (List.replicate n c) = s := by
  intro n
  induction n with
  | zero => rfl
  | succ k ih =>
    rw [List.replicate_succ]
    show stateRun (step s c) (List.replicate k c) = s
    rw [h, ih]

/-- A character other than a closing brace never passes the emission test. -/
theorem emits_ne_close (m : Nat) (t : Int) (s : ScanState) (c : Char) (i : Nat)
    (h : ¬ c = '}') : emits m t s c i = false := by
  simp [emits, h]

/-- The filler contains no closing brace. -/
theorem exFill_no_close : ∀ k c, exFill.get? k = some c → ¬ c = '}' := by
  intro k c h
  match k with
  | 0 =>
    have h0 : some '{' = some c := h
    injection h0 with h0
    subst h0
    decide
  | 1 =>
    have h1 : some ':' = some c := h
    injection h1 with h1
    subst h1
    decide
  | (k' + 2) =>
    have h2 : (List.replicate 1000 'x').get? k' = some c := h
    rw [List.get?_eq_getElem?, List.getElem?_replicate] at h2
    by_cases hk : k' < 1000
    · rw [if_pos hk] at h2
      injection h2 with h2
      subst h2
      decide
    · rw [if_neg hk] at h2
      exact absurd h2 (by simp)

/-- Scanning the filler alone exhausts it. -/
theorem scanAux_exFill_none : scanAux 1000 1 exFill 0 initState = none := by
  apply scanAux_none
  intro k c hget
  exact emits_ne_close _ _ _ _ _ (exFill_no_close k c hget)

/-- State after the filler: depth 1, outside any string. -/
theorem stateRun_exFill : stateRun initState exFill = ⟨1, false, false⟩ := by
  rw [show exFill = '{' :: ':' :: List.replicate 1000 'x' from rfl]
  unfold stateRun
  rw [List.foldl_cons, List.foldl_cons]
  rw [show step (step initState '{') ':' = (⟨1, false, false⟩ : ScanState) from by decide]
  exact stateRun_replicate _ _ (by decide) 1000

/-- The length of the filler. -/
theorem exFill_length : exFill.length = 1002 := by
  simp [exFill]

/-- The hard-coded routine reports the span (2, 1004) on `exLong`. -/
theorem scan_exLong : scan exLong = some (2, 1004) := by
  have h1 : scanAux 1000 1 exLong 0 initState = some 1004 := by
    rw [show exLong = exFill ++ ['{', '}'] from rfl, scanAux_append,
      scanAux_exFill_none, stateRun_exFill, show 0 + exFill.length = 1002 from by
        rw [exFill_length]]
    decide
  unfold scan
  rw [show findIdx ':' exLong = some 1 from rfl, h1]
  rfl

/-- The hard-coded routine reports the span (2, 1004) on `exLongTail`. -/
theorem scan_exLongTail : scan exLongTail = some (2, 1004) := by
  have h1 : scanAux 1000 1 exLongTail 0 initState = some 1004 := by
    rw [show exLongTail = exFill ++ ['{', '}', '{', '"', 'x'] from rfl, scanAux_append,
      scanAux_exFill_none, stateRun_exFill, show 0 + exFill.length = 1002 from by
        rw [exFill_length]]
    decide
  unfold scan
  rw [show findIdx ':' exLongTail = some 1 from rfl, h1]
  rfl

/-- State after all of `exLongTail`: depth 2, inside a string. -/
theorem stateRun_exLongTail : stateRun initState exLongTail = ⟨2, true, false⟩ := by
  have h : stateRun initState exLongTail =
      stateRun (stateRun initState exFill) ['{', '}', '{', '"', 'x'] := by
    rw [show exLongTail = exFill ++ ['{', '}', '{', '"', 'x'] from rfl]
    simp [stateRun, List.foldl_append]
  rw [h, stateRun_exFill]
  decide

/-- The substring of `exLong` between the reported offsets 2 and 1004 does
not start with an opening brace. -/
theorem exLong_span_not_region : ¬ BalancedRegion ((exLong.drop 2).take (1004 - 2)) := by
  intro h
  have h1 := h.1
  rw [show ((exLong.drop 2).take (1004 - 2)).head? = some 'x' from rfl] at h1
  exact absurd h1 (by decide)

/-! Claim theorems. -/

/-- C3 counterexample: after the scanner processes a single backslash from
the initial state (outside any string), `escape_next` is true while
`in_string` is false, refuting "escapeNext is true only while inString is
true": the loop sets `escape_next` on every backslash, without consulting
`in_string`. -/
theorem C3_counterexample :
    (stateRun initState ['\\']).escape_next = true ∧
      (stateRun initState ['\\']).in_string = false := by decide

/-- C3 amended: a backslash sets `escape_next` whether or not `in_string`
is true (the loop tests only the character), and the character after the
backslash is consumed with no effect at all: in particular, outside a
string a quote following a backslash does not toggle `in_string`, and a
brace following a backslash does not change `depth`. -/
theorem C3_amended (s : ScanState) (c : Char) (h : s.escape_next = false) :
    step s '\\' = ⟨s.depth, s.in_string, true⟩ ∧
      step (step s '\\') c = ⟨s.depth, s.in_string, false⟩ := by
  constructor
  · simp [step, h]
  · simp [step, h]

/-- C3 witness: from depth 0 outside a string, a backslash followed by an
opening brace leaves the depth at 0 (the brace is skipped). -/
theorem C3_witness :
    step (step ⟨0, false, false⟩ '\\') '{' = ⟨0, false, false⟩ :=
  (C3_amended ⟨0, false, false⟩ '{' rfl).2

/-- C4 counterexample: the example input `\x7b"a":"x\"y"\x7d` has 12
characters, not 13; at the parameters at which the whole object is
reportable (threshold 0, target depth 0) the scan returns end offset 12,
not 13, and the hard-coded routine (threshold 1000, target depth 1)
returns `none` on it outright. -/
theorem C4_counterexample :
    exEscape.length = 12 ∧ scanAt 0 0 exEscape = some 12 ∧
      scanAt 0 0 exEscape ≠ some 13 ∧ scan exEscape = none := by decide

/-- C4 amended: the scanner does not treat the escaped quote as terminating
the string — after consuming `x\"` the state is still inside the string —
and at threshold 0 and target depth 0 it returns the full object as one
span of length 12: start 0, end 12. -/
theorem C4_amended :
    (stateRun initState (exEscape.take 9)).in_string = true ∧
      scanAt 0 0 exEscape = some 12 ∧ exEscape.length = 12 := by decide

/-- C5: for the input `\x7b"a":"\x7bnot a brace\x7d"\x7d`, braces inside
the quoted string move no depth (after the inner opening brace at index 6
the depth is still 1), and the scan at threshold 0 and target depth 0
returns the full outer span ending at 21 — the whole input — not the
shorter span 19 that would end at the closing brace inside the string. -/
theorem C5_theorem :
    scanAt 0 0 exInnerBrace = some 21 ∧ exInnerBrace.length = 21 ∧
      scanAt 0 0 exInnerBrace ≠ some 19 ∧
      (stateRun initState (exInnerBrace.take 7)).depth = 1 := by decide

/-- C6 counterexample: on `\x7d\x7b"a":1\x7d` the scan does not error but
also does not find the valid object after the stray brace: it returns
`none` at target depths 0 and 1 and under the hard-coded routine, while the
same scan without the stray brace finds the object (end offset 7). -/
theorem C6_counterexample :
    scanAt 0 0 exStray = none ∧ scanAt 0 1 exStray = none ∧
      scan exStray = none ∧ scanAt 0 0 (exStray.drop 1) = some 7 := by decide

/-- C6 amended: the scanner does not raise an error on a stray leading
closing brace (the scan is a total function returning `none`), but depth is
neither clamped nor tolerated: the stray brace drives the depth to -1 and
permanently shifts all later depths, so the valid object's close lands on
depth -1 and is matched only at the compensated target depth -1, not at the
intended target; at target 0 the result is `none`. -/
theorem C6_amended :
    (stateRun initState (exStray.take 1)).depth = -1 ∧
      (stateRun initState exStray).depth = -1 ∧
      scanAt 0 (-1) exStray = some 8 ∧ scanAt 0 0 exStray = none := by decide

/-- C9: the scan is deterministic and stateless across invocations: its
result is a function of the immutable input, the threshold and the target
depth alone, and every invocation starts from the fresh initial state
(depth 0, outside any string, no pending escape), so two runs on the same
input with the same parameters yield identical results. -/
theorem C9_theorem (min_close : Nat) (tgt : Int) (l : List Char) (r₁ r₂ : Option Nat)
    (h₁ : r₁ = scanAt min_close tgt l) (h₂ : r₂ = scanAt min_close tgt l) :
    r₁ = r₂ ∧ scanAt min_close tgt l = scanAux min_close tgt l 0 initState :=
  ⟨h₁.trans h₂.symm, rfl⟩

/-- C9 witness: two invocations of the hard-coded scan on the example
object agree. -/
theorem C9_witness :
    scanAt 1000 1 exObj = scanAt 1000 1 exObj :=
  (C9_theorem 1000 1 exObj (scanAt 1000 1 exObj) (scanAt 1000 1 exObj) rfl rfl).1

/-- C2 counterexample: scanning at target depth 1 (the value the claim
names) does not return a span covering the whole input.  The emission test
compares the *decremented* depth with the target, and the closing brace of
the whole input brings the depth to 0: on the balanced input
`\x7b"a":1\x7d` the scan at threshold 0 and target depth 1 returns `none`,
and on the balanced input `\x7b"a":\x7b\x7d\x7d` it returns the inner
object's end offset 7, not the whole input's 8. -/
theorem C2_counterexample :
    (Balanced exBody ∧ scanAt 0 1 ('{' :: (exBody ++ ['}'])) = none) ∧
      (Balanced exNestedBody ∧ scanAt 0 1 ('{' :: (exNestedBody ++ ['}'])) = some 7 ∧
        ('{' :: (exNestedBody ++ ['}'])).length = 8) := by decide

/-- C2 amended: for every well-formed balanced input consisting of an
opening brace, a balanced body and a closing brace, scanning from offset 0
at target depth 0 (the depth the final closing brace decrements to) with
threshold 0 returns a span ending exactly at the end of the input. -/
theorem C2_amended (body : List Char) (h : Balanced body) :
    scanAt 0 0 ('{' :: (body ++ ['}'])) = some ('{' :: (body ++ ['}'])).length := by
  obtain ⟨hpre, hrun⟩ := h
  have hshift : ∀ j, stateRun ⟨1, false, false⟩ (body.take j) =
      ⟨(stateRun initState (body.take j)).depth + 1,
        (stateRun initState (body.take j)).in_string,
        (stateRun initState (body.take j)).escape_next⟩ := by
    intro j
    simpa [initState] using stateRun_shift (body.take j) initState 1
  have h0 : emits 0 0 initState '{' 0 = false := by decide
  have hstep : step initState '{' = ⟨1, false, false⟩ := by decide
  unfold scanAt
  rw [scanAux_cons, h0]
  simp only [Bool.false_eq_true, if_false, hstep]
  have hget : (body ++ ['}']).get? body.length = some '}' := by
    rw [List.get?_append_right (Nat.le_refl _)]
    simp
  have htake : (body ++ ['}']).take body.length = body := by
    simp
  have hstbody : stateRun ⟨1, false, false⟩ body = ⟨1, false, false⟩ := by
    have hs := stateRun_shift body initState 1
    rw [hrun] at hs
    simpa [initState] using hs
  have hem : emits 0 0 (stateRun ⟨1, false, false⟩ ((body ++ ['}']).take body.length)) '}'
      (1 + body.length) = true := by
    rw [htake, hstbody]
    simp [emits]
  have hbefore : ∀ j c', j < body.length → (body ++ ['}']).get? j = some c' →
      emits 0 0 (stateRun ⟨1, false, false⟩ ((body ++ ['}']).take j)) c' (1 + j) = false := by
    intro j c' hj hget'
    rw [List.get?_append hj] at hget'
    rw [List.take_append_of_le_length (Nat.le_of_lt hj)]
    by_contra hne
    rw [Bool.not_eq_false] at hne
    simp only [emits, Bool.and_eq_true, Bool.not_eq_true', decide_eq_true_eq] at hne
    obtain ⟨⟨⟨⟨hesc, hins⟩, hc⟩, hd⟩, _⟩ := hne
    subst hc
    rw [hshift j] at hesc hins hd
    have hesc0 : (stateRun initState (body.take j)).escape_next = false := hesc
    have hins0 : (stateRun initState (body.take j)).in_string = false := hins
    have hd0 : (stateRun initState (body.take j)).depth = 0 := by
      have : (stateRun initState (body.take j)).depth + 1 - 1 = 0 := hd
      omega
    have hget2 : body[j]? = some '}' := by
      rw [← List.get?_eq_getElem?]
      exact hget'
    have hnext : stateRun initState (body.take (j + 1)) =
        step (stateRun initState (body.take j)) '}' := by
      rw [List.take_succ, hget2]
      simp [stateRun, List.foldl_append]
    have hstepv : step (stateRun initState (body.take j)) '}' =
        ⟨(stateRun initState (body.take j)).depth - 1,
          (stateRun initState (body.take j)).in_string,
          (stateRun initState (body.take j)).escape_next⟩ := by
      unfold step
      rw [hesc0, hins0]
      simp
    have hp := hpre (j + 1) (by omega)
    rw [hnext, hstepv] at hp
    simp only at hp
    omega
  have hmain := scanAux_first (body ++ ['}']) 0 0 1 ⟨1, false, false⟩
    body.length '}' hget hem hbefore
  rw [hmain]
  congr 1
  simp only [List.length_cons, List.length_append, List.length_nil]
  omega

/-- C2 witness: on the body `"a":1` the amended scan covers the whole
input `\x7b"a":1\x7d`. -/
theorem C2_witness :
    scanAt 0 0 ('{' :: (exBody ++ ['}'])) = some ('{' :: (exBody ++ ['}'])).length :=
  C2_amended exBody (by decide)

/-- C8: chunk-invariance of the scanner with carried state — splitting the
input into arbitrary chunk boundaries at character granularity and feeding
the chunks incrementally (threading `ScanState` and the absolute position
across boundaries) yields exactly the result of scanning the whole
concatenated input at once, for every threshold and target depth. -/
theorem C8_theorem (min_close : Nat) (tgt : Int) (chunks : List (List Char)) :
    scanChunks min_close tgt chunks = scanAt min_close tgt chunks.flatten :=
  scanChunksAux_join min_close tgt chunks 0 initState

/-- C7 counterexample: `exLongTail` ends with unbalanced braces (the state
after the whole input has depth 2) and ends while inside an unterminated
string (`in_string` is true at end-of-stream), yet the routine does not
return NotFound: an interior span qualified earlier, so it returns the span
(2, 1004). -/
theorem C7_counterexample :
    scan exLongTail = some (2, 1004) ∧
      (stateRun initState exLongTail).depth = 2 ∧
      (stateRun initState exLongTail).in_string = true := by
  refine ⟨scan_exLongTail, ?_, ?_⟩ <;> rw [stateRun_exLongTail]

/-- C7 amended: when the scan exhausts the stream without a qualifying
close — in particular on the unbalanced example `\x7b"a":1` and on the
unterminated-string example `\x7b"a":"xy` — it returns `none`, an ordinary
value of the total scan function, never a partial or best-effort span: any
reported span ends exactly at a closing brace processed outside a string
whose decrement hit the target depth beyond the threshold.  (An input that
completes a qualifying span before the end is still reported even if the
remainder leaves braces unbalanced or a string open: see the
counterexample.) -/
theorem C7_amended :
    (scan exUnbalanced = none ∧ scanAt 0 0 exUnbalanced = none ∧
      scanAt 0 1 exUnbalanced = none ∧ scanAt 0 0 exUnterminated = none ∧
      (stateRun initState exUnterminated).in_string = true) ∧
    ∀ (min_close : Nat) (tgt : Int) (l : List Char) (e : Nat),
      scanAt min_close tgt l = some e →
        ∃ k, k < l.length ∧ e = k + 1 ∧ l.get? k = some '}' ∧ min_close < k ∧
          (stateRun initState (l.take k)).in_string = false ∧
          (stateRun initState (l.take k)).depth - 1 = tgt := by
  constructor
  · decide
  · intro m t l e h
    obtain ⟨k, hk, he, hget, hm, _, h2, h3⟩ := scanAux_sound l m t 0 initState e h
    exact ⟨k, hk, by omega, hget, by omega, h2, h3⟩

/-- C7 witness: the span reported on `\x7b"a":1\x7d` at threshold 0 and
target depth 0 ends at a qualifying closing brace. -/
theorem C7_witness :
    ∃ k, k < exObj.length ∧ 7 = k + 1 ∧ exObj.get? k = some '}' ∧ 0 < k ∧
      (stateRun initState (exObj.take k)).in_string = false ∧
      (stateRun initState (exObj.take k)).depth - 1 = 0 :=
  C7_amended.2 0 0 exObj 7 (by decide)

/-- C10: the hard-coded routine emits a match only at a closing brace whose
decrement leaves depth exactly 1 at an offset strictly greater than 1000:
(1) if every such qualifying close sits at offset at most 1000 the scan
returns `none` regardless of the input's content, (2) every reported span
ends one past such a close, and (3) in particular every input of length at
most 1001 yields `none`. -/
theorem C10_theorem (l : List Char) :
    ((∀ k, l.get? k = some '}' →
        (stateRun initState (l.take k)).escape_next = false →
        (stateRun initState (l.take k)).in_string = false →
        (stateRun initState (l.take k)).depth - 1 = 1 → k ≤ 1000) →
      scan l = none) ∧
    (∀ st e, scan l = some (st, e) → ∃ k, e = k + 1 ∧ 1000 < k ∧ k < l.length ∧
      l.get? k = some '}' ∧ (stateRun initState (l.take k)).depth - 1 = 1) ∧
    (l.length ≤ 1001 → scan l = none) := by
  have hnone : (∀ k, l.get? k = some '}' →
      (stateRun initState (l.take k)).escape_next = false →
      (stateRun initState (l.take k)).in_string = false →
      (stateRun initState (l.take k)).depth - 1 = 1 → k ≤ 1000) →
      scan l = none := by
    intro H
    unfold scan
    cases hfc : findIdx ':' l with
    | none => rfl
    | some fc =>
      have : scanAux 1000 1 l 0 initState = none := by
        apply scanAux_none
        intro k c hget
        by_contra hne
        rw [Bool.not_eq_false] at hne
        simp only [emits, Bool.and_eq_true, Bool.not_eq_true', decide_eq_true_eq] at hne
        obtain ⟨⟨⟨⟨hesc, hins⟩, hc⟩, hd⟩, hi⟩ := hne
        subst hc
        have := H k hget hesc hins hd
        omega
      rw [this]
      rfl
  refine ⟨hnone, ?_, ?_⟩
  · intro st e h
    obtain ⟨-, k, he, hk, hlen, hget, -, -, hd⟩ := scan_sound l st e h
    exact ⟨k, he, hk, hlen, hget, hd⟩
  · intro hlen
    apply hnone
    intro k hget _ _ _
    have hklen : k < l.length := by
      have := List.get?_eq_some.mp hget
      exact this.1
    omega

/-- C10 witness: on the seven-character example object (length at most
1001) the hard-coded routine returns `none`. -/
theorem C10_witness : scan exObj = none :=
  (C10_theorem exObj).2.2 (by decide)

/-- C1 counterexample: on `exLong` the routine reports success with the
span (2, 1004) — but the substring from offset 2 to offset 1004 (1000
filler characters followed by `\x7b\x7d`) is not one balanced
brace-delimited region: the reported start offset comes from the position
of the first colon, not from the opening brace of the matched object. -/
theorem C1_counterexample :
    scan exLong = some (2, 1004) ∧
      ¬ BalancedRegion ((exLong.drop 2).take (1004 - 2)) :=
  ⟨scan_exLong, exLong_span_not_region⟩

/-- C1 amended: on success the routine returns `start = (index of the first
colon in the sample) + 1` and `end = k + 1` for a closing brace at absolute
offset `k > 1000`, processed outside a string, whose decrement left depth
exactly 1; the substring from start to end is not in general one balanced
brace-delimited region (see the counterexample).  When the stream is
exhausted without such a qualifying close, the result is `none`. -/
theorem C1_amended (l : List Char) (st e : Nat) (h : scan l = some (st, e)) :
    (∃ fc, findIdx ':' l = some fc ∧ st = fc + 1) ∧
      ∃ k, e = k + 1 ∧ 1000 < k ∧ k < l.length ∧ l.get? k = some '}' ∧
        (stateRun initState (l.take k)).in_string = false ∧
        (stateRun initState (l.take k)).depth - 1 = 1 := by
  obtain ⟨hcolon, k, he, hk, hlen, hget, -, hins, hd⟩ := scan_sound l st e h
  exact ⟨hcolon, k, he, hk, hlen, hget, hins, hd⟩

/-- C1 witness: the span reported on `exLong` starts one past the colon at
index 1 and ends one past a qualifying closing brace. -/
theorem C1_witness :
    (∃ fc, findIdx ':' exLong = some fc ∧ 2 = fc + 1) ∧
      ∃ k, 1004 = k + 1 ∧ 1000 < k ∧ k < exLong.length ∧ exLong.get? k = some '}' ∧
        (stateRun initState (exLong.take k)).in_string = false ∧
        (stateRun initState (exLong.take k)).depth - 1 = 1 :=
  C1_amended exLong 2 1004 scan_exLong

end Otto
